import Mathlib

/-!
Verification of the command interpreter and history store of
`src/assets/js/script.js` (the `CommandSystem` object of the terminal
portfolio page).

Modelling conventions:
* JS strings are Lean `String`s; the handful of string primitives the
  source uses (`trim`, `toLowerCase`, `split(/\s+/)`, `join`, `padEnd`,
  `endsWith`) are embedded as structurally recursive functions over
  `String.data` so that every definition evaluates inside the kernel.
* A JS value that may be `undefined`/`null` is an `Option`; a JS function
  that may throw is `String → Except String _` where the `String` on the
  error side is the thrown error's `message`.
* The dispatch object `CommandSystem.commands` is embedded as an
  association list of its own literal keys, together with an explicit
  model of the truthy properties it inherits from `Object.prototype`
  (`objectProtoNames`), on which the source's truthiness-guarded
  property accesses also fire.  `execute` is parameterised by the
  own-key table (`executeWith`) because `this.commands` is ordinary
  mutable object state in the source; `execute` itself fixes the table
  to the one defined on lines 236-321.
* DOM / host side effects of handlers (wiping the transcript, opening
  URLs, hiding the terminal) are elided; only the returned result values
  are modelled.  `localStorage` is modelled as the parsed stored value:
  an `Option (List String)`, where `none` stands for "key absent or
  content that does not parse".
-/

namespace Portfolio

/-- `CONFIG.maxHistoryItems` (script.js line 16). -/
def maxHistoryItems : Nat := 50

/-- Whitespace as recognised by JS `String.prototype.trim` and `/\s/`,
restricted to the ASCII whitespace characters that can appear here. -/
def isWS (c : Char) : Bool := c = ' ' || c = '\t' || c = '\n' || c = '\r'

/-- Drop leading whitespace characters. -/
def lstrip (l : List Char) : List Char := l.dropWhile isWS

/-- Drop trailing whitespace characters (structural, via `foldr`). -/
def rstrip (l : List Char) : List Char :=
  l.foldr (fun c acc => if acc.isEmpty && isWS c then [] else c :: acc) []

/-- JS `String.prototype.trim`: remove leading and trailing whitespace. -/
def jsTrim (s : String) : String := String.mk (rstrip (lstrip s.data))

/-- JS `String.prototype.toLowerCase` (ASCII range, which covers every
command name in the source). -/
def jsToLower (s : String) : String := String.mk (s.data.map Char.toLower)

/-- JS `String.prototype.endsWith` for a one-character suffix, as used by
the `ls` handler (`file.endsWith('/')`). -/
def jsEndsWith (s suff : String) : Bool := suff.data.isSuffixOf s.data

/-- Split a character list at every whitespace character, keeping empty
fields (the fields of JS `split` with a one-character separator). -/
def splitFields (l : List Char) : List (List Char) :=
  l.foldr
    (fun c acc =>
      match acc with
      | [] => if isWS c then [[], []] else [[c]]
      | f :: rest => if isWS c then [] :: f :: rest else (c :: f) :: rest)
    [[]]

/-- JS `trimmed.split(/\s+/)` as used on line 332: on a trimmed string the
regex split yields exactly the maximal non-empty runs of non-whitespace
characters, i.e. the non-empty fields of a split at each whitespace
character. -/
def splitWs (s : String) : List String :=
  ((splitFields s.data).map String.mk).filter (fun t => !(t == ""))

/-- `const parts = trimmed.split(/\s+/)` (line 332). -/
def tokensOf (input : String) : List String := splitWs (jsTrim input)

/-- `const cmd = parts[0].toLowerCase()` (line 333). -/
def cmdOf (input : String) : String := jsToLower ((tokensOf input).headD "")

/-- `const args = parts.slice(1).join(' ')` (line 334). -/
def argsOf (input : String) : String :=
  String.intercalate " " ((tokensOf input).drop 1)

/-- A JS value that can end up in a result's `content` slot: either a
string, or a member inherited from `Object.prototype` (identified by its
property name) — the `cat` handler's truthiness test
`if (FILE_CONTENT[file])` passes for such inherited members and stores
them verbatim in the result. -/
inductive JsValue where
  | str : String → JsValue
  | protoMember : String → JsValue
deriving DecidableEq

/-- The result object `{ type, content }` a handler produces
(spec: `CommandResult`, a kind tag plus a payload). -/
structure CommandResult where
  type : String
  content : JsValue
deriving DecidableEq

/-- The own property names of `Object.prototype`, inherited by every
plain object literal such as `FILE_CONTENT` and `CommandSystem.commands`;
each maps to a truthy value (a function, or `Object.prototype` itself
for `__proto__`). -/
def objectProtoNames : List String :=
  ["constructor", "hasOwnProperty", "isPrototypeOf", "propertyIsEnumerable",
   "toLocaleString", "toString", "valueOf", "__defineGetter__",
   "__defineSetter__", "__lookupGetter__", "__lookupSetter__", "__proto__"]

/-- The message of the `TypeError` thrown when `execute` calls the
non-function `this.commands['__proto__']` (i.e. `Object.prototype`);
the exact wording is host-engine specific — V8's wording is used. -/
def protoNotFunctionMsg : String := "this.commands[cmd] is not a function"

/-- A value `execute` can return: JS `null` (and a handler's raw
`undefined`, conflated with it), a plain result object, or the foreign
object `Object(args)` — a String wrapper around the argument string —
produced by dispatching on the inherited `constructor` property. -/
inductive ExecReturn where
  | nullRet : ExecReturn
  | res : CommandResult → ExecReturn
  | stringObject : String → ExecReturn
deriving DecidableEq

/-- Does `execute`'s return carry an actual CommandResult object? -/
def isResultReturn : Except String ExecReturn → Bool := fun x =>
  match x with
  | .ok (.res _) => true
  | _ => false

/-- A command handler: takes the argument string, may throw (`.error`
carries the fault message), may return no result (`none` models a JS
`undefined`/`null` return). -/
def Handler : Type := String → Except String (Option CommandResult)

instance exceptDecEq {ε α : Type} [DecidableEq ε] [DecidableEq α] :
    DecidableEq (Except ε α) := fun x y =>
  match x, y with
  | .ok a, .ok b => if h : a = b then .isTrue (by rw [h]) else .isFalse (by simp [h])
  | .ok _, .error _ => .isFalse (by simp)
  | .error _, .ok _ => .isFalse (by simp)
  | .error a, .error b => if h : a = b then .isTrue (by rw [h]) else .isFalse (by simp [h])

/-- `FILE_CONTENT['about.txt']` (lines 49-57). -/
def aboutTxt : String :=
  "NAME:        Subash Aryal\nROLE:        DevOps Engineer\nLOCATION:    Nepal\nEMAIL:       aryalsubash07@gmail.com\n\nDESCRIPTION:\nDedicated DevOps engineer with strong hands-on skills in automation,\ncloud, and container orchestration. Passionate about designing stable,\nscalable systems and simplifying complex infrastructure."

/-- `FILE_CONTENT['experience.log']` (lines 58-66); the bullet characters
are embedded exactly as they appear (UTF-8 mojibake) in the source. -/
def experienceLog : String :=
  "[2024-Present] DevOps Engineer\nInfrastructure & Automation\n\nResponsibilities:\n  ‚Ä¢ Design and implement scalable containerized infrastructure\n  ‚Ä¢ Automate CI/CD pipelines to streamline workflows\n  ‚Ä¢ Manage cloud infrastructure on AWS\n  ‚Ä¢ Implement monitoring solutions (Prometheus, Grafana)\n  ‚Ä¢ Configure infrastructure as code using Ansible"

/-- `FILE_CONTENT['README.md']` (lines 67-79). -/
def readmeMd : String :=
  "# Subash Aryal - DevOps Engineer Portfolio\n\nWelcome to my terminal portfolio!\n\nQuick Navigation:\n- Scroll down to explore sections\n- Use the command input at the bottom\n- Try typing \x27help\x27 for available commands\n\nContact:\nEmail: aryalsubash07@gmail.com\nGitHub: https://github.com/aryalsubash07\nLinkedIn: https://linkedin.com/in/aryalsubash07"

/-- The `FILE_CONTENT` table (lines 48-80): the VirtualFile table. -/
def FILE_CONTENT : List (String × String) :=
  [("about.txt", aboutTxt), ("experience.log", experienceLog), ("README.md", readmeMd)]

/-- `FILE_LIST` (line 82). -/
def FILE_LIST : List String :=
  ["about.txt", "experience.log", "skills/", "projects/", "contact.sh", "README.md"]

/-- `LINKS.github` (line 85). -/
def githubUrl : String := "https://github.com/aryalsubash07"

/-- `LINKS.linkedin` (line 86). -/
def linkedinUrl : String := "https://linkedin.com/in/aryalsubash07"

/-- `LINKS.email` (line 87). -/
def emailAddr : String := "aryalsubash07@gmail.com"

/-- JS `String.prototype.padEnd` with a space pad, as used by
`formatCommand` (line 230). -/
def padEnd (s : String) (n : Nat) : String :=
  s ++ String.mk (List.replicate (n - s.data.length) ' ')

/-- `CommandSystem.formatCommand` (lines 229-231). -/
def formatCommand (cmd desc : String) : String := "  " ++ padEnd cmd 18 ++ " " ++ desc

/-- The `help` handler's content template (lines 239-250). -/
def helpContent : String :=
  "Available commands:\n\n" ++
  formatCommand "help" "Show this help" ++ "\n" ++
  formatCommand "clear" "Clear terminal" ++ "\n" ++
  formatCommand "whoami" "User information" ++ "\n" ++
  formatCommand "ls" "List files" ++ "\n" ++
  formatCommand "cat <file>" "Read file" ++ "\n" ++
  formatCommand "contact" "Contact info" ++ "\n" ++
  formatCommand "github" "Open GitHub" ++ "\n" ++
  formatCommand "linkedin" "Open LinkedIn" ++ "\n" ++
  formatCommand "email" "Send email" ++ "\n" ++
  formatCommand ":q" "Close terminal"

/-- The `whoami` handler's content template (lines 263-267); the heavy
rule line is embedded exactly as in the source. -/
def whoamiContent : String :=
  "subash aryal\n‚îÅ‚îÅ‚îÅ‚îÅ‚îÅ‚îÅ‚îÅ‚îÅ‚îÅ‚îÅ‚îÅ‚îÅ‚îÅ‚îÅ‚îÅ‚îÅ‚îÅ‚îÅ‚îÅ‚îÅ‚îÅ‚îÅ‚îÅ‚îÅ‚îÅ‚îÅ‚îÅ‚îÅ‚îÅ‚îÅ‚îÅ‚îÅ‚îÅ‚îÅ‚îÅ‚îÅ‚îÅ‚îÅ‚îÅ‚îÅ\nrole:     DevOps Engineer\nlocation: Nepal\nemail:    " ++ emailAddr

/-- The `contact` handler's content template (lines 290-299). -/
def contactContent : String :=
  "CONTACT INFORMATION\n‚îÅ‚îÅ‚îÅ‚îÅ‚îÅ‚îÅ‚îÅ‚îÅ‚îÅ‚îÅ‚îÅ‚îÅ‚îÅ‚îÅ‚îÅ‚îÅ‚îÅ‚îÅ‚îÅ‚îÅ‚îÅ‚îÅ‚îÅ‚îÅ‚îÅ‚îÅ‚îÅ‚îÅ‚îÅ‚îÅ‚îÅ‚îÅ‚îÅ‚îÅ‚îÅ‚îÅ‚îÅ‚îÅ‚îÅ‚îÅ\n\nEmail:    " ++ emailAddr ++ "\nGitHub:   " ++ githubUrl ++ "\nLinkedIn: " ++ linkedinUrl ++ "\nLocation: Nepal\n\nI\x27m always open to discussing new opportunities, interesting projects,\nor conversations about DevOps, cloud infrastructure, and automation."

/-- The `ls` handler's output (lines 270-278); the folder/file icon
characters are embedded exactly as they appear in the source. -/
def lsOutput : String :=
  String.intercalate "\n"
    (FILE_LIST.map (fun file =>
      (if jsEndsWith file "/" then "üìÅ" else "üìÑ") ++ "  " ++ file))

/-- `commands.help` (lines 237-251). -/
def helpCmd : Handler := fun _ => .ok (some ⟨"help", .str helpContent⟩)

/-- `commands.clear` (lines 253-259); the DOM transcript wipe is elided. -/
def clearCmd : Handler := fun _ => .ok (some ⟨"success", .str "Terminal cleared."⟩)

/-- `commands.whoami` (lines 261-268). -/
def whoamiCmd : Handler := fun _ => .ok (some ⟨"info", .str whoamiContent⟩)

/-- `commands.ls` (lines 270-278). -/
def lsCmd : Handler := fun _ => .ok (some ⟨"list", .str lsOutput⟩)

/-- `commands.cat` (lines 280-286): the truthiness test
`if (FILE_CONTENT[file])` passes for the three literal keys (their
contents are non-empty strings) and also for every member `FILE_CONTENT`
inherits from `Object.prototype` — `file` is the trimmed argument, not
lower-cased, so all of `objectProtoNames` are reachable and yield an
`info` result whose content is the inherited member itself. -/
def catCmd : Handler := fun args =>
  let file := jsTrim args
  match FILE_CONTENT.lookup file with
  | some content => .ok (some ⟨"info", .str content⟩)
  | none =>
    if file ∈ objectProtoNames then .ok (some ⟨"info", .protoMember file⟩)
    else .ok (some ⟨"error", .str ("cat: " ++ file ++ ": No such file or directory")⟩)

/-- `commands.contact` (lines 288-300). -/
def contactCmd : Handler := fun _ => .ok (some ⟨"info", .str contactContent⟩)

/-- `commands.github` (lines 302-305); `window.open` is elided. -/
def githubCmd : Handler := fun _ => .ok (some ⟨"success", .str "Opening GitHub profile..."⟩)

/-- `commands.linkedin` (lines 307-310); `window.open` is elided. -/
def linkedinCmd : Handler := fun _ => .ok (some ⟨"success", .str "Opening LinkedIn profile..."⟩)

/-- `commands.email` (lines 312-315); the `mailto:` navigation is elided. -/
def emailCmd : Handler := fun _ => .ok (some ⟨"success", .str "Opening email client..."⟩)

/-- `commands[':q']` (lines 317-320); `TerminalUI.closeTerminal()` is elided. -/
def quitCmd : Handler := fun _ =>
  .ok (some ⟨"info", .str "Terminal closed. Press ` or ~ to reopen."⟩)

/-- The `CommandSystem.commands` dispatch table (lines 236-321), as an
association list of its own literal property keys. -/
def commandsTable : List (String × Handler) :=
  [("help", helpCmd), ("clear", clearCmd), ("whoami", whoamiCmd), ("ls", lsCmd),
   ("cat", catCmd), ("contact", contactCmd), ("github", githubCmd),
   ("linkedin", linkedinCmd), ("email", emailCmd), (":q", quitCmd)]

/-- `CommandSystem.execute` (lines 328-353), parameterised by the table
it reads from `this.commands` (own literal keys).  The outer `Except` is
the fault channel of `execute` itself: the vi-quit path (lines 337-339)
calls its handler with no argument and outside the `try`/`catch`, so a
fault there propagates (and a missing `':q'` key would make the call
itself throw a `TypeError`).  On the generic path, the guard
`if (this.commands[cmd])` (line 342) is a truthiness test on a property
access, which also sees members inherited from `Object.prototype`: since
`cmd` is lower-cased, of those names exactly `constructor` and
`__proto__` (the only all-lowercase ones) are reachable when not
shadowed by an own key.  `this.commands['constructor'](args)` is
`Object(args)`: it does not throw and returns a truthy String-wrapper
object, which line 345 returns as-is; `this.commands['__proto__']` is
`Object.prototype`, not callable, so the call throws a `TypeError` that
the `catch` converts.  An own handler's fault is caught and converted
(line 348), and an own handler's missing result is normalised to an
empty `info` result (`result || { type: 'info', content: '' }`). -/
def executeWith (cmds : List (String × Handler)) (input : String) :
    Except String ExecReturn :=
  let trimmed := jsTrim input
  if trimmed = "" then .ok .nullRet
  else
    let cmd := cmdOf input
    let args := argsOf input
    if trimmed = ":q" ∨ cmd = ":q" then
      match cmds.lookup ":q" with
      | some h =>
        match h "" with
        | .ok (some r) => .ok (.res r)
        | .ok none => .ok .nullRet
        | .error e => .error e
      | none => .error "TypeError: this.commands[cmd] is not a function"
    else
      match cmds.lookup cmd with
      | some h =>
        match h args with
        | .ok r => .ok (.res (r.getD ⟨"info", .str ""⟩))
        | .error e => .ok (.res ⟨"error", .str ("Error: " ++ e)⟩)
      | none =>
        if cmd = "constructor" then .ok (.stringObject args)
        else if cmd = "__proto__" then
          .ok (.res ⟨"error", .str ("Error: " ++ protoNotFunctionMsg)⟩)
        else
          .ok (.res ⟨"error", .str ("Command not found: " ++ cmd ++
            ". Type \x27help\x27 for available commands.")⟩)

/-- `CommandSystem.execute` with the table defined in the source. -/
def execute (input : String) : Except String ExecReturn :=
  executeWith commandsTable input

/-- The mutable state of the history store: `CommandSystem.history`,
`CommandSystem.historyIndex` (lines 145-146; a signed integer, its
pre-`init` value is `-1`), and the `localStorage` slot under
`CONFIG.storageKey`, modelled as its parsed content (`none` = key absent
or unparseable). -/
structure HistState where
  history : List String
  historyIndex : Int
  storage : Option (List String)
deriving DecidableEq

/-- `CommandSystem.loadHistory` (lines 159-169): the stored list (if
present and parseable) truncated by `slice(-CONFIG.maxHistoryItems)` to
its at most 50 most recent entries; absent or unparseable content yields
the empty list (the `catch` branch). -/
def loadHistory (saved : Option (List String)) : List String :=
  match saved with
  | none => []
  | some l => l.drop (l.length - maxHistoryItems)

/-- `CommandSystem.init` (lines 151-154): load the history and set the
cursor one past the end. -/
def initState (saved : Option (List String)) : HistState :=
  let h := loadHistory saved
  { history := h, historyIndex := (h.length : Int), storage := saved }

/-- `CommandSystem.saveHistory` (lines 174-180): overwrite the storage
slot with the current list (a write fault is swallowed in the source and
not modelled). -/
def saveHistory (s : HistState) : HistState := { s with storage := some s.history }

/-- `CommandSystem.addToHistory` (lines 186-196): trim; no-op on empty;
push the trimmed command; `shift()` the oldest entry if the length now
exceeds the maximum; reset the cursor one past the end; persist. -/
def addToHistory (s : HistState) (command : String) : HistState :=
  let trimmed := jsTrim command
  if trimmed = "" then s
  else
    let h1 := s.history ++ [trimmed]
    let h2 := if h1.length > maxHistoryItems then h1.drop 1 else h1
    saveHistory { s with history := h2, historyIndex := (h2.length : Int) }

/-- `CommandSystem.getPrevious` (lines 202-208).  `this.history[i]` with
an in-range `i` is the list entry; out-of-range access (unreachable from
in-range cursors) would be JS `undefined`, modelled by the default `""`. -/
def getPrevious (s : HistState) : String × HistState :=
  if 0 < s.historyIndex then
    let i := s.historyIndex - 1
    (s.history.getD i.toNat "", { s with historyIndex := i })
  else ("", s)

/-- `CommandSystem.getNext` (lines 214-221). -/
def getNext (s : HistState) : String × HistState :=
  if s.historyIndex < (s.history.length : Int) - 1 then
    let i := s.historyIndex + 1
    (s.history.getD i.toNat "", { s with historyIndex := i })
  else ("", { s with historyIndex := (s.history.length : Int) })

/-- The cursor invariant of the spec: the cursor lies in `[0, length]`. -/
def histInv (s : HistState) : Prop :=
  0 ≤ s.historyIndex ∧ s.historyIndex ≤ (s.history.length : Int)

instance (s : HistState) : Decidable (histInv s) := by
  unfold histInv; infer_instance

/-- An entry in normal form: non-empty and free of leading and trailing
whitespace. -/
def trimmedEntry (x : String) : Prop := x ≠ "" ∧ jsTrim x = x

/-- A probe handler that reports the argument string it was invoked
with; used to observe what `execute` passes to a dispatched handler. -/
def echoHandler : Handler := fun a => .ok (some ⟨"info", .str a⟩)

/-- A handler that always throws, with fault message `"boom"`; used to
observe `execute`'s fault handling. -/
def boomHandler : Handler := fun _ => .error "boom"

theorem rstrip_cons (c : Char) (t : List Char) :
    rstrip (c :: t) = if (rstrip t).isEmpty && isWS c then [] else c :: rstrip t := rfl

theorem rstrip_rstrip (l : List Char) : rstrip (rstrip l) = rstrip l := by
  induction l with
  | nil => rfl
  | cons c t ih =>
    rw [rstrip_cons]
    by_cases h : ((rstrip t).isEmpty && isWS c) = true
    · rw [if_pos h]; rfl
    · rw [if_neg h, rstrip_cons, ih, if_neg h]

theorem lstrip_head_not_ws {l : List Char} {c : Char} {t : List Char}
    (h : lstrip l = c :: t) : isWS c = false := by
  induction l with
  | nil => simp [lstrip, List.dropWhile] at h
  | cons a tl ih =>
    rw [lstrip, List.dropWhile_cons] at h
    by_cases ha : isWS a = true
    · rw [if_pos ha] at h; exact ih h
    · rw [if_neg ha] at h
      cases h
      simpa using ha

theorem rstrip_cases (c : Char) (t : List Char) :
    rstrip (c :: t) = [] ∨ rstrip (c :: t) = c :: rstrip t := by
  rw [rstrip_cons]
  by_cases h : ((rstrip t).isEmpty && isWS c) = true
  · left; rw [if_pos h]
  · right; rw [if_neg h]

theorem lstrip_rstrip (l : List Char) :
    lstrip (rstrip (lstrip l)) = rstrip (lstrip l) := by
  cases hm : lstrip l with
  | nil => rfl
  | cons c t =>
    have hc : isWS c = false := lstrip_head_not_ws hm
    rcases rstrip_cases c t with h | h
    · rw [h]; rfl
    · rw [h, lstrip, List.dropWhile_cons, hc]
      simp

theorem jsTrim_idem (s : String) : jsTrim (jsTrim s) = jsTrim s := by
  show String.mk (rstrip (lstrip (rstrip (lstrip s.data)))) = String.mk (rstrip (lstrip s.data))
  rw [lstrip_rstrip, rstrip_rstrip]

theorem lookup_eq_none_of_not_mem {β : Type} (l : List (String × β)) (k : String)
    (h : k ∉ l.map Prod.fst) : List.lookup k l = none := by
  induction l with
  | nil => rfl
  | cons p t ih =>
    obtain ⟨a, b⟩ := p
    simp only [List.map_cons, List.mem_cons, not_or] at h
    simp only [List.lookup]
    rw [show (k == a) = false from beq_eq_false_iff_ne.mpr h.1]
    exact ih h.2

theorem mem_snd_of_lookup {β : Type} {l : List (String × β)} {k : String} {v : β}
    (h : List.lookup k l = some v) : v ∈ l.map Prod.snd := by
  induction l with
  | nil => simp [List.lookup] at h
  | cons p t ih =>
    obtain ⟨a, b⟩ := p
    simp only [List.lookup] at h
    cases hbeq : (k == a) with
    | true =>
      rw [hbeq] at h
      simp only [Option.some.injEq] at h
      simp [← h]
    | false =>
      rw [hbeq] at h
      simp only [List.map_cons, List.mem_cons]
      exact Or.inr (ih h)

theorem cmdOf_of_trim_colonq {input : String} (h : jsTrim input = ":q") :
    cmdOf input = ":q" := by
  unfold cmdOf tokensOf
  rw [h]
  decide

theorem handlers_total :
    ∀ hd ∈ commandsTable.map Prod.snd, ∀ a, ∃ r, hd a = Except.ok (some r) := by
  intro hd hm a
  simp only [commandsTable, List.map_cons, List.map_nil, List.mem_cons,
    List.not_mem_nil, or_false] at hm
  rcases hm with rfl | rfl | rfl | rfl | rfl | rfl | rfl | rfl | rfl | rfl
  · exact ⟨⟨"help", .str helpContent⟩, rfl⟩
  · exact ⟨⟨"success", .str "Terminal cleared."⟩, rfl⟩
  · exact ⟨⟨"info", .str whoamiContent⟩, rfl⟩
  · exact ⟨⟨"list", .str lsOutput⟩, rfl⟩
  · simp only [catCmd]
    cases hl : FILE_CONTENT.lookup (jsTrim a) with
    | some content => exact ⟨⟨"info", .str content⟩, rfl⟩
    | none =>
      by_cases hp : jsTrim a ∈ objectProtoNames
      · exact ⟨⟨"info", .protoMember (jsTrim a)⟩, by rw [if_pos hp]⟩
      · exact ⟨⟨"error", .str ("cat: " ++ jsTrim a ++ ": No such file or directory")⟩,
          by rw [if_neg hp]⟩
  · exact ⟨⟨"info", .str contactContent⟩, rfl⟩
  · exact ⟨⟨"success", .str "Opening GitHub profile..."⟩, rfl⟩
  · exact ⟨⟨"success", .str "Opening LinkedIn profile..."⟩, rfl⟩
  · exact ⟨⟨"success", .str "Opening email client..."⟩, rfl⟩
  · exact ⟨⟨"info", .str "Terminal closed. Press ` or ~ to reopen."⟩, rfl⟩

/-- C1, counterexample: the claim that internal whitespace of the
argument string is preserved fails at `execute "cat a   b"`.  The source
rejoins the token list with single spaces (line 334), so the `cat`
handler receives `"a b"` — observable in the error text — and not
`"a   b"` as the claim's own example demands. -/
theorem arg_whitespace_not_preserved :
    execute "cat a   b" =
      .ok (.res ⟨"error", .str "cat: a b: No such file or directory"⟩) ∧
    execute "cat a   b" ≠
      .ok (.res ⟨"error", .str "cat: a   b: No such file or directory"⟩) :=
  ⟨rfl, by decide⟩

/-- C1, amended: for every input that is non-blank after trimming and is
not routed to the quit shorthand, the argument string `execute` passes to
the dispatched handler is the sequence of whitespace-delimited tokens
after the first, rejoined with single spaces (internal whitespace runs
are collapsed, not preserved).  Observed through a probe handler
registered under the input's own command name. -/
theorem executeWith_arg_is_tokens_joined (input : String)
    (h1 : jsTrim input ≠ "") (h2 : cmdOf input ≠ ":q") :
    executeWith [(cmdOf input, echoHandler)] input =
      .ok (.res ⟨"info", .str (String.intercalate " " ((tokensOf input).drop 1))⟩) := by
  have htr : jsTrim input ≠ ":q" := fun hc => h2 (cmdOf_of_trim_colonq hc)
  simp only [executeWith]
  rw [if_neg h1, if_neg (by simp [htr, h2] : ¬(jsTrim input = ":q" ∨ cmdOf input = ":q"))]
  rw [show List.lookup (cmdOf input) [(cmdOf input, echoHandler)] = some echoHandler from by
    simp [List.lookup]]
  rfl

/-- Witness for the amended C1 at the claim's own example input. -/
theorem executeWith_arg_is_tokens_joined_witness :
    executeWith [(cmdOf "cat a   b", echoHandler)] "cat a   b" =
      .ok (.res ⟨"info", .str "a b"⟩) :=
  (executeWith_arg_is_tokens_joined "cat a   b" (by decide) (by decide)).trans (by decide)

/-- C2, counterexample: with a registered handler that throws with
message `"boom"`, the caught fault is converted to an error result whose
text is `"Error: boom"` — not the fault's message text itself — and a
fault thrown by the `':q'` handler propagates out of `execute`
uncaught, because the vi-quit path (lines 337-339) invokes its handler
outside the `try`/`catch`.  The dispatch table is the `this.commands`
object state `execute` reads; the source's own handlers are modelled as
non-throwing, so the claim is exercised on tables with a throwing
handler. -/
theorem handler_fault_not_as_claimed :
    executeWith [("boom", boomHandler)] "boom" =
      .ok (.res ⟨"error", .str "Error: boom"⟩) ∧
    "Error: boom" ≠ "boom" ∧
    executeWith [(":q", boomHandler)] ":q" = .error "boom" :=
  ⟨rfl, by decide, rfl⟩

/-- C2, amended: on the generic dispatch path (input not routed to the
quit shorthand), a fault raised by the matched handler is caught and
converted to a CommandResult of kind `error` whose text is `"Error: "`
followed by the fault's message; no such fault propagates out of
`execute`.  (A fault in the quit handler reached via the `':q'`
shorthand is not covered by the `try`/`catch` and does propagate.) -/
theorem executeWith_catches_handler_fault (cmds : List (String × Handler))
    (input : String) (hd : Handler) (msg : String)
    (h1 : jsTrim input ≠ "") (h2 : cmdOf input ≠ ":q")
    (h3 : List.lookup (cmdOf input) cmds = some hd)
    (h4 : hd (argsOf input) = .error msg) :
    executeWith cmds input = .ok (.res ⟨"error", .str ("Error: " ++ msg)⟩) := by
  have htr : jsTrim input ≠ ":q" := fun hc => h2 (cmdOf_of_trim_colonq hc)
  simp only [executeWith]
  rw [if_neg h1, if_neg (by simp [htr, h2] : ¬(jsTrim input = ":q" ∨ cmdOf input = ":q"))]
  simp only [h3, h4]

/-- Witness for the amended C2 on a table with a throwing handler. -/
theorem executeWith_catches_handler_fault_witness :
    executeWith [("boomer", boomHandler)] "boomer" =
      .ok (.res ⟨"error", .str "Error: boom"⟩) :=
  executeWith_catches_handler_fault [("boomer", boomHandler)] "boomer" boomHandler "boom"
    (by decide) (by decide) rfl rfl

/-- C3: the history cursor always lies in `[0, length]`: it does after
`init` (with any load outcome, including the absent/unparseable case
`none`), and `addToHistory`, `getPrevious` and `getNext` each preserve
it. -/
theorem history_cursor_invariant :
    (∀ saved, histInv (initState saved)) ∧
    (∀ s c, histInv s → histInv (addToHistory s c)) ∧
    (∀ s, histInv s → histInv (getPrevious s).2) ∧
    (∀ s, histInv s → histInv (getNext s).2) := by
  refine ⟨?_, ?_, ?_, ?_⟩
  · intro saved
    exact ⟨Int.ofNat_nonneg _, le_refl _⟩
  · intro s c hs
    by_cases ht : jsTrim c = ""
    · simp only [addToHistory]; rw [if_pos ht]; exact hs
    · simp only [addToHistory]; rw [if_neg ht]
      exact ⟨Int.ofNat_nonneg _, le_refl _⟩
  · intro s hs
    obtain ⟨hs0, hs1⟩ := hs
    simp only [getPrevious]
    split_ifs with h
    · exact ⟨show (0 : Int) ≤ s.historyIndex - 1 by omega,
        show s.historyIndex - 1 ≤ (s.history.length : Int) by omega⟩
    · exact ⟨hs0, hs1⟩
  · intro s hs
    obtain ⟨hs0, hs1⟩ := hs
    simp only [getNext]
    split_ifs with h
    · exact ⟨show (0 : Int) ≤ s.historyIndex + 1 by omega,
        show s.historyIndex + 1 ≤ (s.history.length : Int) by omega⟩
    · exact ⟨Int.ofNat_nonneg _, le_refl _⟩

/-- Witness for C3 at a concrete state. -/
theorem history_cursor_invariant_witness :
    histInv (getPrevious ⟨["alpha"], 1, none⟩).2 :=
  history_cursor_invariant.2.2.1 ⟨["alpha"], 1, none⟩ (by decide)

/-- C4: the history list never exceeds the configured maximum of 50:
the list loaded at startup is a suffix (the most recent entries) of the
stored list of length at most 50, `addToHistory` keeps the length within
the bound, and adding to a full list evicts exactly the front entry,
keeping the survivors in insertion order and the length at the
maximum. -/
theorem history_capacity_bound :
    (∀ saved, (loadHistory saved).length ≤ maxHistoryItems) ∧
    (∀ l : List String, (loadHistory (some l)).IsSuffix l) ∧
    (∀ s c, s.history.length ≤ maxHistoryItems →
      (addToHistory s c).history.length ≤ maxHistoryItems) ∧
    (∀ s c, s.history.length = maxHistoryItems → jsTrim c ≠ "" →
      (addToHistory s c).history = s.history.drop 1 ++ [jsTrim c] ∧
      (addToHistory s c).history.length = maxHistoryItems) := by
  refine ⟨?_, ?_, ?_, ?_⟩
  · intro saved
    cases saved with
    | none => simp [loadHistory]
    | some l => simp only [loadHistory, List.length_drop]; omega
  · intro l
    simp only [loadHistory]
    exact List.drop_suffix _ _
  · intro s c hlen
    by_cases ht : jsTrim c = ""
    · simp only [addToHistory]; rw [if_pos ht]; exact hlen
    · simp only [addToHistory]; rw [if_neg ht]
      by_cases hlong : (s.history ++ [jsTrim c]).length > maxHistoryItems
      · rw [if_pos hlong]
        show ((s.history ++ [jsTrim c]).drop 1).length ≤ maxHistoryItems
        simp only [List.length_drop, List.length_append, List.length_singleton]
        omega
      · rw [if_neg hlong]
        show (s.history ++ [jsTrim c]).length ≤ maxHistoryItems
        omega
  · intro s c hlen ht
    simp only [addToHistory]; rw [if_neg ht]
    have hlong : (s.history ++ [jsTrim c]).length > maxHistoryItems := by
      simp only [List.length_append, List.length_singleton]
      omega
    rw [if_pos hlong]
    constructor
    · show (s.history ++ [jsTrim c]).drop 1 = s.history.drop 1 ++ [jsTrim c]
      cases hh : s.history with
      | nil => rw [hh] at hlen; simp [maxHistoryItems] at hlen
      | cons a tl => simp
    · show ((s.history ++ [jsTrim c]).drop 1).length = maxHistoryItems
      simp only [List.length_drop, List.length_append, List.length_singleton]
      omega

/-- Witness for C4: adding to a full 50-entry list evicts the front. -/
theorem history_capacity_bound_witness :
    (addToHistory ⟨List.replicate 50 "x", 50, none⟩ "y").history =
      (List.replicate 50 "x").drop 1 ++ [jsTrim "y"] ∧
    (addToHistory ⟨List.replicate 50 "x", 50, none⟩ "y").history.length = maxHistoryItems :=
  history_capacity_bound.2.2.2 ⟨List.replicate 50 "x", 50, none⟩ "y" (by decide) (by decide)

/-- C5, counterexample: `constructor` and `__proto__` are lower-case
first tokens that are none of the ten registered command names, yet
`execute` does not return the claimed not-found error for them: the
truthiness guard of line 342 fires on the member inherited from
`Object.prototype`, so `execute "constructor"` returns the String
wrapper `Object('')` (line 345) and `execute "__proto__"` returns the
caught `TypeError` converted by line 348. -/
theorem execute_dispatches_inherited_names :
    execute "constructor" = .ok (.stringObject "") ∧
    execute "constructor" ≠ .ok (.res ⟨"error", .str
      "Command not found: constructor. Type \x27help\x27 for available commands."⟩) ∧
    execute "__proto__" = .ok (.res ⟨"error", .str ("Error: " ++ protoNotFunctionMsg)⟩) ∧
    execute "__proto__" ≠ .ok (.res ⟨"error", .str
      "Command not found: __proto__. Type \x27help\x27 for available commands."⟩) :=
  ⟨rfl, by decide, rfl, by decide⟩

/-- C5, amended: for every input that is non-blank after trimming and
whose lower-cased first token is none of the ten registered command
names and is neither `constructor` nor `__proto__` (the two all-lowercase
property names the dispatch object inherits from `Object.prototype`, on
which the truthiness guard of line 342 also fires), `execute` returns an
error result with exactly the documented command-not-found text built
from that lower-cased first token. -/
theorem execute_command_not_found (input : String)
    (h1 : jsTrim input ≠ "")
    (h2 : cmdOf input ∉ (["help", "clear", "whoami", "ls", "cat", "contact",
      "github", "linkedin", "email", ":q"] : List String))
    (h3 : cmdOf input ≠ "constructor") (h4 : cmdOf input ≠ "__proto__") :
    execute input = .ok (.res ⟨"error", .str ("Command not found: " ++ cmdOf input ++
      ". Type \x27help\x27 for available commands.")⟩) := by
  have hq : cmdOf input ≠ ":q" := by
    intro hc
    exact h2 (by rw [hc]; simp)
  have htr : jsTrim input ≠ ":q" := fun hc => hq (cmdOf_of_trim_colonq hc)
  have hlk : List.lookup (cmdOf input) commandsTable = none := by
    apply lookup_eq_none_of_not_mem
    simpa [commandsTable] using h2
  simp only [execute, executeWith]
  rw [if_neg h1, if_neg (by simp [htr, hq] : ¬(jsTrim input = ":q" ∨ cmdOf input = ":q"))]
  simp only [hlk]
  rw [if_neg h3, if_neg h4]

/-- Witness for the amended C5 at the spec's own example input. -/
theorem execute_command_not_found_witness :
    execute "nosuchcmd" = .ok (.res ⟨"error", .str
      "Command not found: nosuchcmd. Type \x27help\x27 for available commands."⟩) :=
  (execute_command_not_found "nosuchcmd" (by decide) (by decide) (by decide)
    (by decide)).trans (by decide)

/-- C6: navigation behaviour for every state with the cursor in
`[0, length]`: `getPrevious` moves the cursor down and returns the entry
it lands on when the cursor is positive, and returns the empty string
leaving the cursor at 0 otherwise; `getNext` moves the cursor up and
returns the entry it lands on when the cursor is below `length - 1`, and
otherwise resets the cursor to `length` and returns the empty string. -/
theorem history_navigation_spec (s : HistState)
    (_h0 : 0 ≤ s.historyIndex) (_hle : s.historyIndex ≤ (s.history.length : Int)) :
    (0 < s.historyIndex →
      getPrevious s = (s.history.getD (s.historyIndex - 1).toNat "",
        { s with historyIndex := s.historyIndex - 1 })) ∧
    (s.historyIndex = 0 → getPrevious s = ("", s)) ∧
    (s.historyIndex < (s.history.length : Int) - 1 →
      getNext s = (s.history.getD (s.historyIndex + 1).toNat "",
        { s with historyIndex := s.historyIndex + 1 })) ∧
    (¬ s.historyIndex < (s.history.length : Int) - 1 →
      getNext s = ("", { s with historyIndex := (s.history.length : Int) })) := by
  refine ⟨?_, ?_, ?_, ?_⟩
  · intro h
    simp only [getPrevious]
    rw [if_pos h]
  · intro h
    simp only [getPrevious]
    rw [if_neg (by omega)]
  · intro h
    simp only [getNext]
    rw [if_pos h]
  · intro h
    simp only [getNext]
    rw [if_neg h]

/-- Witness for C6 at a concrete two-entry state. -/
theorem history_navigation_spec_witness :
    getPrevious ⟨["a", "b"], 2, none⟩ = ("b", ⟨["a", "b"], 1, none⟩) :=
  ((history_navigation_spec ⟨["a", "b"], 2, none⟩ (by decide) (by decide)).1
    (by decide)).trans (by decide)

/-- C7, counterexample: `cat constructor` does not return the claimed
no-such-file error — the truthiness test `if (FILE_CONTENT[file])`
(line 282) passes on the `constructor` member inherited from
`Object.prototype`, so the handler returns an `info` result whose
content is that inherited member, not a file string. -/
theorem cat_inherited_name_returns_info :
    catCmd "constructor" = .ok (some ⟨"info", .protoMember "constructor"⟩) ∧
    catCmd "constructor" ≠ .ok (some ⟨"error", .str
      "cat: constructor: No such file or directory"⟩) :=
  ⟨rfl, by decide⟩

/-- C7, amended: the `cat` handler returns the fixed content of the
named VirtualFile as an `info` result when the trimmed argument is one
of the three table names; for a trimmed argument that is one of the
property names `FILE_CONTENT` inherits from `Object.prototype` it
returns an `info` result carrying that inherited member; and for every
other name it returns an `error` result with exactly the documented
no-such-file text built from the trimmed argument. -/
theorem cat_lookup_spec (args : String) :
    (jsTrim args = "about.txt" → catCmd args = .ok (some ⟨"info", .str aboutTxt⟩)) ∧
    (jsTrim args = "experience.log" →
      catCmd args = .ok (some ⟨"info", .str experienceLog⟩)) ∧
    (jsTrim args = "README.md" → catCmd args = .ok (some ⟨"info", .str readmeMd⟩)) ∧
    (jsTrim args ∈ objectProtoNames →
      catCmd args = .ok (some ⟨"info", .protoMember (jsTrim args)⟩)) ∧
    (jsTrim args ∉ (["about.txt", "experience.log", "README.md"] : List String) →
      jsTrim args ∉ objectProtoNames →
      catCmd args = .ok (some ⟨"error",
        .str ("cat: " ++ jsTrim args ++ ": No such file or directory")⟩)) := by
  refine ⟨?_, ?_, ?_, ?_, ?_⟩
  · intro h
    simp only [catCmd]
    rw [h]
    rfl
  · intro h
    simp only [catCmd]
    rw [h]
    rfl
  · intro h
    simp only [catCmd]
    rw [h]
    rfl
  · intro h
    simp only [objectProtoNames, List.mem_cons, List.not_mem_nil, or_false] at h
    rcases h with h | h | h | h | h | h | h | h | h | h | h | h <;>
      · simp only [catCmd]
        rw [h]
        rfl
  · intro h hp
    have hlk : List.lookup (jsTrim args) FILE_CONTENT = none := by
      apply lookup_eq_none_of_not_mem
      simpa [FILE_CONTENT] using h
    simp only [catCmd, hlk]
    rw [if_neg hp]

/-- Witness for the amended C7: a present file, an inherited name, and
a missing file. -/
theorem cat_lookup_spec_witness :
    catCmd "about.txt" = .ok (some ⟨"info", .str aboutTxt⟩) ∧
    catCmd "toString" = .ok (some ⟨"info", .protoMember "toString"⟩) ∧
    catCmd "missing.txt" = .ok (some ⟨"error",
      .str "cat: missing.txt: No such file or directory"⟩) :=
  ⟨(cat_lookup_spec "about.txt").1 (by decide),
   ((cat_lookup_spec "toString").2.2.2.1 (by decide)).trans (by decide),
   ((cat_lookup_spec "missing.txt").2.2.2.2 (by decide) (by decide)).trans (by decide)⟩

/-- C8, counterexample: `execute "constructor"` — non-blank after
trimming — returns neither null nor a CommandResult: the inherited
`constructor` property passes the truthiness guard, `Object('')` is
called (line 344) and the resulting truthy String-wrapper object is
returned as-is by line 345. -/
theorem execute_constructor_not_a_result :
    jsTrim "constructor" ≠ "" ∧
    execute "constructor" ≠ .ok .nullRet ∧
    isResultReturn (execute "constructor") = false :=
  ⟨by decide, by decide, rfl⟩

/-- C8, amended: `execute` returns null exactly for input that is blank
after trimming; every non-blank input whose lower-cased first token is
not `constructor` yields a non-null CommandResult (every registered
handler of the source's table returns a result, the `__proto__` and
not-found branches return results, and — third conjunct, over an
arbitrary table — a handler that returns no result on the generic
dispatch path is normalised to an `info` result with empty text); for
the first token `constructor` the returned value is the non-null,
non-CommandResult String wrapper `Object(args)`. -/
theorem execute_null_iff_blank :
    (∀ input, execute input = .ok .nullRet ↔ jsTrim input = "") ∧
    (∀ input, jsTrim input ≠ "" → cmdOf input ≠ "constructor" →
      ∃ r, execute input = .ok (.res r)) ∧
    (∀ input, jsTrim input ≠ "" → cmdOf input = "constructor" →
      execute input = .ok (.stringObject (argsOf input))) ∧
    (∀ cmds input (hd : Handler), jsTrim input ≠ "" → cmdOf input ≠ ":q" →
      List.lookup (cmdOf input) cmds = some hd → hd (argsOf input) = .ok none →
      executeWith cmds input = .ok (.res ⟨"info", .str ""⟩)) := by
  have total : ∀ input, jsTrim input ≠ "" → cmdOf input ≠ "constructor" →
      ∃ r, execute input = .ok (.res r) := by
    intro input h1 hcons
    simp only [execute, executeWith]
    rw [if_neg h1]
    by_cases hq : jsTrim input = ":q" ∨ cmdOf input = ":q"
    · rw [if_pos hq]
      exact ⟨⟨"info", .str "Terminal closed. Press ` or ~ to reopen."⟩, rfl⟩
    · rw [if_neg hq]
      cases hlk : List.lookup (cmdOf input) commandsTable with
      | none =>
        by_cases hp : cmdOf input = "__proto__"
        · exact ⟨⟨"error", .str ("Error: " ++ protoNotFunctionMsg)⟩,
            by simp only [hlk]; rw [if_neg hcons, if_pos hp]⟩
        · exact ⟨⟨"error", .str ("Command not found: " ++ cmdOf input ++
            ". Type \x27help\x27 for available commands.")⟩,
            by simp only [hlk]; rw [if_neg hcons, if_neg hp]⟩
      | some hd =>
        obtain ⟨r, hr⟩ := handlers_total hd (mem_snd_of_lookup hlk) (argsOf input)
        exact ⟨r, by simp only [hlk, hr]; rfl⟩
  have wrapper : ∀ input, jsTrim input ≠ "" → cmdOf input = "constructor" →
      execute input = .ok (.stringObject (argsOf input)) := by
    intro input h1 hcons
    have hq : cmdOf input ≠ ":q" := by rw [hcons]; decide
    have htr : jsTrim input ≠ ":q" := fun hc => hq (cmdOf_of_trim_colonq hc)
    have hlk : List.lookup (cmdOf input) commandsTable = none := by
      rw [hcons]
      rfl
    simp only [execute, executeWith]
    rw [if_neg h1, if_neg (by simp [htr, hq] : ¬(jsTrim input = ":q" ∨ cmdOf input = ":q"))]
    simp only [hlk]
    rw [if_pos hcons]
  refine ⟨?_, total, wrapper, ?_⟩
  · intro input
    constructor
    · intro he
      by_contra h1
      by_cases hcons : cmdOf input = "constructor"
      · rw [wrapper input h1 hcons] at he
        simp at he
      · obtain ⟨r, hr⟩ := total input h1 hcons
        rw [hr] at he
        simp at he
    · intro h1
      simp [execute, executeWith, h1]
  · intro cmds input hd h1 h2 hlk hnone
    have htr : jsTrim input ≠ ":q" := fun hc => h2 (cmdOf_of_trim_colonq hc)
    simp only [executeWith]
    rw [if_neg h1, if_neg (by simp [htr, h2] : ¬(jsTrim input = ":q" ∨ cmdOf input = ":q"))]
    simp only [hlk, hnone]
    rfl

/-- Witness for the amended C8: blank input yields null; a handler with
no result is normalised to an empty `info` result; `constructor` yields
the String wrapper. -/
theorem execute_null_iff_blank_witness :
    execute "   " = .ok .nullRet ∧
    executeWith [("ping", (fun _ => .ok none : Handler))] "ping" =
      .ok (.res ⟨"info", .str ""⟩) ∧
    execute "constructor x" = .ok (.stringObject (argsOf "constructor x")) :=
  ⟨(execute_null_iff_blank.1 "   ").mpr (by decide),
   execute_null_iff_blank.2.2.2 [("ping", (fun _ => .ok none : Handler))] "ping"
     (fun _ => .ok none) (by decide) (by decide) rfl rfl,
   execute_null_iff_blank.2.2.1 "constructor x" (by decide) (by decide)⟩

/-- C9: `getPrevious` and `getNext` never change the stored command
sequence and never write to persistent storage: only the cursor field of
the state differs after a call. -/
theorem navigation_preserves_history (s : HistState) :
    (getPrevious s).2.history = s.history ∧ (getPrevious s).2.storage = s.storage ∧
    (getNext s).2.history = s.history ∧ (getNext s).2.storage = s.storage := by
  refine ⟨?_, ?_, ?_, ?_⟩ <;> simp only [getPrevious, getNext] <;> split_ifs <;> rfl

/-- C10: every entry `addToHistory` stores is the trimmed form of the
submitted input: a blank submission is a no-op, a non-blank submission
appends exactly its trimmed form as the newest entry, the
all-entries-trimmed-and-non-empty property is preserved (eviction only
removes entries), and after `addToHistory "  a  "` on a fresh state,
`getPrevious` returns `"a"`. -/
theorem addToHistory_stores_trimmed :
    (∀ s c, jsTrim c = "" → addToHistory s c = s) ∧
    (∀ s c, jsTrim c ≠ "" →
      (addToHistory s c).history.getLast? = some (jsTrim c)) ∧
    (∀ s c, (∀ x ∈ s.history, trimmedEntry x) →
      ∀ x ∈ (addToHistory s c).history, trimmedEntry x) ∧
    (getPrevious (addToHistory (initState none) "  a  ")).1 = "a" := by
  refine ⟨?_, ?_, ?_, by decide⟩
  · intro s c ht
    simp only [addToHistory]
    rw [if_pos ht]
  · intro s c ht
    simp only [addToHistory]
    rw [if_neg ht]
    show ((if (s.history ++ [jsTrim c]).length > maxHistoryItems then
      (s.history ++ [jsTrim c]).drop 1 else s.history ++ [jsTrim c])).getLast? =
      some (jsTrim c)
    split_ifs with hlong
    · cases hh : s.history with
      | nil => rw [hh] at hlong; simp [maxHistoryItems] at hlong
      | cons a tl => simp
    · exact List.getLast?_concat _
  · intro s c hall x hx
    by_cases ht : jsTrim c = ""
    · rw [show addToHistory s c = s from by simp only [addToHistory]; rw [if_pos ht]] at hx
      exact hall x hx
    · simp only [addToHistory] at hx
      rw [if_neg ht] at hx
      have hx2 : x ∈ s.history ++ [jsTrim c] := by
        revert hx
        show x ∈ (if (s.history ++ [jsTrim c]).length > maxHistoryItems then
          (s.history ++ [jsTrim c]).drop 1 else s.history ++ [jsTrim c]) →
          x ∈ s.history ++ [jsTrim c]
        split_ifs with hlong
        · exact fun hmem => List.drop_subset _ _ hmem
        · exact id
      rcases List.mem_append.mp hx2 with hmem | hmem
      · exact hall x hmem
      · rw [List.mem_singleton.mp hmem]
        exact ⟨ht, jsTrim_idem c⟩

/-- Witness for C10: adding an untrimmed command stores its trimmed
form as the newest entry. -/
theorem addToHistory_stores_trimmed_witness :
    (addToHistory ⟨[], 0, none⟩ "  hi  ").history.getLast? = some (jsTrim "  hi  ") :=
  addToHistory_stores_trimmed.2.1 ⟨[], 0, none⟩ "  hi  " (by decide)

end Portfolio
